import Mathlib

/-!
Verification development for paramnb (`paramnb/__init__.py`), a Jupyter
widget layer for `param`-declared objects.  The Python source is embedded
shallowly: pure decision functions become Lean functions, the event-driven
parts become explicit side-effect traces, and the JSON initialization
resolver becomes a function on an explicit object state that records
warnings and uncaught exceptions.  Python floats used for precedences are
modelled as rationals (they are only compared), Python ints as `ℤ`.
-/

namespace Paramnb

/-! ### Field descriptor model

Models the `param` parameter objects as consumed by the engine: the
declared type (a tag standing for the Python class), the `precedence`
attribute (a float or `None`), and the `constant` flag.  -/

/-- Tags for the parameter classes that appear in `ptype2wtype` and their
ancestors, mirroring the Python class hierarchy of the external `param`
library plus the `Output` classes defined in the source. -/
inductive PType where
  | Parameter
  | String
  | Dynamic
  | Number
  | Integer
  | Boolean
  | Callable
  | Action
  | Selector
  | ObjectSelector
  | ListSelector
  | Output
  | HTMLOutput
  | HoloViewsOutput
deriving DecidableEq, Repr

/-- Method resolution order of each parameter class, most specific class
first.  `classlist` in the source returns the ancestors first and
`wtype` reverses it (`classlist(type(pobj))[::-1]`), so `wtype` walks
exactly this list.  Models the external `param` class hierarchy
(`Integer < Number < Dynamic < Parameter`, `ListSelector <
ObjectSelector < Selector < Parameter`, `Action < Callable <
Parameter`) and the source's `Output(param.Parameter)`,
`HTMLOutput(Output, param.String)`, `HoloViewsOutput(Output)`. -/
def mro : PType → List PType
  | .Parameter => [.Parameter]
  | .String => [.String, .Parameter]
  | .Dynamic => [.Dynamic, .Parameter]
  | .Number => [.Number, .Dynamic, .Parameter]
  | .Integer => [.Integer, .Number, .Dynamic, .Parameter]
  | .Boolean => [.Boolean, .Parameter]
  | .Callable => [.Callable, .Parameter]
  | .Action => [.Action, .Callable, .Parameter]
  | .Selector => [.Selector, .Parameter]
  | .ObjectSelector => [.ObjectSelector, .Selector, .Parameter]
  | .ListSelector => [.ListSelector, .ObjectSelector, .Selector, .Parameter]
  | .Output => [.Output, .Parameter]
  | .HTMLOutput => [.HTMLOutput, .Output, .String, .Parameter]
  | .HoloViewsOutput => [.HoloViewsOutput, .Output, .Parameter]

/-- A field descriptor as the engine reads it: declared type tag,
`precedence` (float or `None`) and the `constant` flag. -/
structure PParam where
  ptype : PType := .Parameter
  precedence : Option ℚ := none
  «constant» : Bool := false
deriving DecidableEq, Repr

/-- The widget factories appearing as values of `ptype2wtype`, plus
`HTMLWidget` which `wtype` returns directly for constant parameters. -/
inductive WType where
  | TextWidget
  | Dropdown
  | Checkbox
  | FloatWidget
  | IntegerWidget
  | ListSelectorWidget
  | ActionButton
  | ActiveHTMLWidget
  | HTMLWidget
deriving DecidableEq, Repr

/-- The module-level registry `ptype2wtype` (source lines 137-147), as a
partial map from parameter class tag to widget factory. -/
def ptype2wtype : PType → Option WType
  | .Parameter => some .TextWidget
  | .Selector => some .Dropdown
  | .Boolean => some .Checkbox
  | .Number => some .FloatWidget
  | .Integer => some .IntegerWidget
  | .ListSelector => some .ListSelectorWidget
  | .Action => some .ActionButton
  | .HTMLOutput => some .ActiveHTMLWidget
  | .HoloViewsOutput => some .ActiveHTMLWidget
  | _ => none

/-- Embedding of `wtype(pobj)` (source lines 150-156): constant
parameters are short-circuited to `HTMLWidget`; otherwise the method
resolution order is walked most-specific-first and the first registered
factory is returned.  Python returns `None` implicitly if the loop
finds nothing, hence the `Option`. -/
def wtype (pobj : PParam) : Option WType :=
  if pobj.constant then some .HTMLWidget
  else (mro pobj.ptype).findSome? ptype2wtype

/-! ### ListSelectorWidget (source lines 56-74) -/

/-- The two widget kinds `ListSelectorWidget.__call__` can produce. -/
inductive LSWidget where
  | CrossSelect
  | SelectMultiple
deriving DecidableEq, Repr

/-- Default of the `item_limit` parameter of `ListSelectorWidget`
(source line 62): `param.Integer(default=20, allow_None=True)`. -/
def ListSelectorWidget.item_limit : Option ℤ := some 20

/-- Embedding of `ListSelectorWidget.__call__` (source lines 69-74):
`if item_limit is not None and len(kw['options']) > item_limit` choose
`CrossSelect`, else `SelectMultiple`.  The effective `item_limit` is the
keyword override or the parameter default; it is passed here as an
argument. -/
def ListSelectorWidget.call (item_limit : Option ℤ) (options : List String) : LSWidget :=
  match item_limit with
  | some limit => if (options.length : ℤ) > limit then .CrossSelect else .SelectMultiple
  | none => .SelectMultiple

/-! ### Execution controller and change events

The notebook side effects (`display(Javascript(...))`, the user
callback, parameter assignment) are modelled as an ordered trace of
events. -/

/-- The `next_n` configuration value: an integer count or the string
`'all'`. -/
inductive NextN where
  | num (n : ℤ)
  | all
deriving DecidableEq, Repr

/-- Observable side effects of the engine, in execution order. -/
inductive Ev where
  | setValue (pName : String)
  | commitBegin
  | advance (bound : Option ℤ)
  | callbackCall (target : String)
deriving DecidableEq, Repr

def Ev.isAdvance : Ev → Bool
  | .advance _ => true
  | _ => false

def Ev.isCallbackCall : Ev → Bool
  | .callbackCall _ => true
  | _ => false

def Ev.isSetValue : Ev → Bool
  | .setValue _ => true
  | _ => false

def Ev.isCommitBegin : Ev → Bool
  | .commitBegin => true
  | _ => false

/-- Embedding of `run_next_cells(n)` (source lines 158-178).  `'all'` is
replaced by `'NaN'`, whose emitted JavaScript never stops decrementing:
an unbounded advance (`advance none`).  An integer `n < 1` returns
without displaying anything; otherwise the JavaScript advancing `n`
cells is displayed (`advance (some n)`). -/
def run_next_cells : NextN → List Ev
  | .all => [.advance none]
  | .num n => if n < 1 then [] else [.advance (some n)]

/-- Embedding of `Widgets.execute(event)` (source lines 344-352) on
Python 3 (the `UnboundMethodType` branch is Python-2 only): first
`run_next_cells(self.p.next_n)`, then, if a callback is configured,
`self.p.callback(self.parameterized)`.  `pz` names the target object;
`commitBegin` marks the entry into `execute` itself (one commit). -/
def execute (pz : String) (next_n : NextN) (callbackSet : Bool) : List Ev :=
  .commitBegin :: (run_next_cells next_n ++ if callbackSet then [.callbackCall pz] else [])

/-- Embedding of the `change_event` closure wired by `_make_widget`
(source lines 298-302): write the new value onto the parameter via
`setattr`, then, unless button mode is on, call `self.execute(None)`. -/
def change_event (pz pName : String) (button : Bool) (next_n : NextN)
    (callbackSet : Bool) : List Ev :=
  .setValue pName :: (if button then [] else execute pz next_n callbackSet)

/-- Wiring choice of `_make_widget` (source lines 304-307): parameters
carrying a `callback` attribute get the field-to-control push channel;
every other parameter has `change_event` observed on the control's
`value` (the control-to-field pull channel). -/
def usesPullChannel (hasCallbackAttr : Bool) : Bool := !hasCallbackAttr

/-! ### Commit-trigger button (source lines 411-415) -/

/-- Python exceptions that the embedded fragments can raise. -/
inductive PyError where
  | valueError (msg : String)
  | typeError
  | attributeError
  | unboundLocalError
deriving DecidableEq, Repr

/-- Python `self.p.next_n == 0`: an int compares by value, `'all' == 0`
is `False`. -/
def pyEqZero : NextN → Bool
  | .num n => n == 0
  | .all => false

/-- Python `self.p.next_n > 0`: an int compares by value; comparing the
string `'all'` with `0` raises `TypeError` on Python 3. -/
def pyGtZero : NextN → Except PyError Bool
  | .num n => .ok (decide (0 < n))
  | .all => .error .typeError

/-- Python `str(next_n)` as used by `'Run %s' % self.p.next_n`. -/
def NextN.pyStr : NextN → String
  | .num n => toString n
  | .all => "all"

/-- Embedding of the commit-button block at the end of
`Widgets.widgets` (source lines 411-415): `if self.p.button and not
(self.p.callback is None and self.p.next_n==0)`, append one button whose
label is `'Run %s' % next_n` when `next_n > 0` else `"Run"`.  Returns
the appended button's label, `none` when no button is appended, or the
uncaught exception. -/
def commitButton (button callbackSet : Bool) (next_n : NextN) :
    Except PyError (Option String) :=
  if button && !(!callbackSet && pyEqZero next_n) then
    match pyGtZero next_n with
    | .error e => .error e
    | .ok true => .ok (some ("Run " ++ next_n.pyStr))
    | .ok false => .ok (some "Run")
  else .ok none

/-! ### Layout ordering pipeline (source lines 378-391)

`Widgets.widgets` takes the items of the target's parameter dictionary
(in registration order), stable-sorts them by effective precedence,
filters by the display threshold, groups consecutive equal-precedence
entries with `itertools.groupby`, sorts each group (Python tuple
comparison, i.e. by parameter name), flattens, and finally pops the
`'name'` entry.  Python's `sorted` is a stable sort; `List.insertionSort`
with a non-strict by-key relation has exactly that semantics. -/

/-- Lexicographic comparison of code-point lists: the order Python uses
on strings. -/
def codesLe : List ℕ → List ℕ → Bool
  | [], _ => true
  | _ :: _, [] => false
  | x :: xs, y :: ys => if x < y then true else if y < x then false else codesLe xs ys

/-- Python string comparison `a <= b` (code-point lexicographic). -/
def pyStrLe (a b : String) : Bool := codesLe (a.data.map Char.toNat) (b.data.map Char.toNat)

/-- The sort key `key_fn` (source line 382): the declared precedence, or
`default_precedence` when the declared precedence is `None`. -/
def keyFn (dp : ℚ) (x : String × PParam) : ℚ :=
  match x.2.precedence with
  | some q => q
  | none => dp

/-- The visibility predicate of the filter at source lines 384-385:
`(p.precedence is None) or (p.precedence >= self.p.display_threshold)`. -/
def visibleB (dt : ℚ) (x : String × PParam) : Bool :=
  match x.2.precedence with
  | none => true
  | some q => decide (dt ≤ q)

/-- Embedding of `sorted_precedence = sorted(params, key=key_fn)` (source line 383):
a stable sort by effective precedence. -/
def sortedPrecedence (dp : ℚ) (params : List (String × PParam)) : List (String × PParam) :=
  List.insertionSort (fun a b => keyFn dp a ≤ keyFn dp b) params

/-- The `filtered` list of source lines 384-385. -/
def filteredParams (dp dt : ℚ) (params : List (String × PParam)) : List (String × PParam) :=
  (sortedPrecedence dp params).filter (visibleB dt)

/-- Embedding of `itertools.groupby(filtered, key=key_fn)` (source line 386): split a
list into maximal runs of consecutive elements with equal key. -/
def groupRuns (key : String × PParam → ℚ) : List (String × PParam) → List (List (String × PParam))
  | [] => []
  | [x] => [[x]]
  | x :: y :: rest =>
    if key x = key y then
      match groupRuns key (y :: rest) with
      | g :: gs => (x :: g) :: gs
      | [] => [[x]]
    else
      [x] :: groupRuns key (y :: rest)

/-- Python tuple comparison on `(name, parameter)` pairs as used by
`sorted(grp)` (source line 387): names are compared first, and names
within one parameter dictionary are distinct, so the comparison is by
name. -/
def pairLe (a b : String × PParam) : Prop := pyStrLe a.1 b.1 = true

instance : DecidableRel pairLe := fun a b => instDecidableEqBool (pyStrLe a.1 b.1) true

/-- Embedding of `sorted_groups = [sorted(grp) for (k,grp) in groups]`
(source line 387). -/
def sortedGroups (dp dt : ℚ) (params : List (String × PParam)) :
    List (List (String × PParam)) :=
  (groupRuns (keyFn dp) (filteredParams dp dt params)).map (List.insertionSort pairLe)

/-- The flattened ordered pair list behind `ordered_params` (source line
388), before the names are projected out. -/
def layoutPairs (dp dt : ℚ) (params : List (String × PParam)) : List (String × PParam) :=
  (sortedGroups dp dt params).flatten

/-- Embedding of `ordered_params = [el[0] for group in sorted_groups for
el in group]` (source line 388). -/
def orderedParams (dp dt : ℚ) (params : List (String × PParam)) : List String :=
  (layoutPairs dp dt params).map Prod.fst

/-- Source line 391: `ordered_params.pop(ordered_params.index('name'))`
removes the first occurrence of `'name'`; `index` raises `ValueError`
when `'name'` is absent, hence the `Option`. -/
def widgetsOrder (dp dt : ℚ) (params : List (String × PParam)) : Option (List String) :=
  if (orderedParams dp dt params).contains "name" then
    some ((orderedParams dp dt params).erase "name")
  else none

/-- Default of the `display_threshold` parameter (source line 225). -/
def display_threshold : ℚ := 0

/-- Default of the `default_precedence` parameter (source line 228),
`1e-8`. -/
def default_precedence : ℚ := mkRat 1 100000000

/-! ### Per-field control registry (source lines 337-341) -/

/-- State of the binding engine's registry `self._widgets`: an
association from parameter name to control instance.  Control identity
is modelled by an allocation counter: `_make_widget` returns the next
fresh id. -/
structure WState where
  registry : List (String × ℕ)
  fresh : ℕ
deriving DecidableEq, Repr

/-- Embedding of `Widgets.widget(param_name)` (source lines 337-341):
`if param_name not in self._widgets: self._widgets[param_name] =
self._make_widget(param_name)`, then return
`self._widgets[param_name]`. -/
def widget (s : WState) (pName : String) : ℕ × WState :=
  match s.registry.lookup pName with
  | some w => (w, s)
  | none => (s.fresh, { registry := (pName, s.fresh) :: s.registry, fresh := s.fresh + 1 })

/-! ### JSONInit (source lines 420-485)

The initialization resolver.  JSON documents are modelled explicitly;
the file system and the JSON parser are passed in as oracles
(`loadFile` models `json.load(open(os.path.abspath(fname)))`,
`parseStr` models `json.loads`).  The outcome records the warnings
emitted through the target's warning channel, an uncaught Python
exception if one escapes, and the final object state. -/

/-- JSON values as produced by Python's `json` module. -/
inductive JValue where
  | null
  | jbool (b : Bool)
  | jnum (q : ℚ)
  | jstr (s : String)
  | jarr (elems : List JValue)
  | jobj (entries : List (String × JValue))

/-- The target `Parameterized` object: its class name, its current
parameter values keyed by parameter name, and the validation the
external `param` library applies on assignment. -/
structure PzObject where
  typeName : String
  values : List (String × JValue)
  accepts : String → JValue → Bool

/-- Update one key of an association list, keeping order. -/
def setAssoc (l : List (String × JValue)) (name : String) (v : JValue) :
    List (String × JValue) :=
  l.map fun kv => if kv.1 == name then (kv.1, v) else kv

/-- Modelled from the spec (external collaborator contract, spec section 6
and 4.5): `Parameterized.set_param(**{name: value})` of the external
`param` library validates the assignment and raises `ValueError` when
`name` is not a declared parameter of the object or when the value is
rejected by the parameter's own validation; on success the value is
stored on the object. -/
def set_param (obj : PzObject) (name : String) (v : JValue) : Except String PzObject :=
  if (obj.values.lookup name).isNone then
    .error (name ++ " is not a parameter of " ++ obj.typeName)
  else if obj.accepts name v then
    .ok { obj with values := setAssoc obj.values name v }
  else
    .error ("validation failed for parameter " ++ name)

/-- Outcome of one `JSONInit.__call__` invocation: the warnings emitted
(in order), the uncaught exception if the call raised, and the final
object. -/
structure InitOutcome where
  warnings : List String
  raised : Option PyError
  obj : PzObject

/-- Python truthiness of the `json_file` parameter value (a string or
`None`): `None` and the empty string are falsy. -/
def pyTruthyStr : Option String → Bool
  | none => false
  | some s => !(s == "")

/-- Python `s.endswith(post)`. -/
def pyEndsWith (s post : String) : Bool :=
  decide (post.data.length ≤ s.data.length) &&
    (s.data.drop (s.data.length - post.data.length) == post.data)

/-- The assignment loop of `JSONInit.__call__` (source lines 481-485):
each key/value pair is applied with `set_param`; a `ValueError` is
caught and warned (`warnobj.warning(str(e))`) and the loop continues. -/
def applyParams (obj : PzObject) : List (String × JValue) → InitOutcome
  | [] => ⟨[], none, obj⟩
  | (n, v) :: rest =>
    match set_param obj n v with
    | .ok obj' => applyParams obj' rest
    | .error msg =>
      let r := applyParams obj rest
      ⟨msg :: r.warnings, r.raised, r.obj⟩

/-- The post-parse part of `JSONInit.__call__` (source lines 472-485):
reject non-dictionary documents with a warning, select the override set
(`spec[target]` when the target key is present, else the whole
document), and apply it.  `params.items()` on a non-dictionary value
raises `AttributeError`. -/
def applySpec (target : String) (spec : JValue) (obj : PzObject) : InitOutcome :=
  match spec with
  | .jobj entries =>
    let paramsVal :=
      match entries.lookup target with
      | some v => v
      | none => JValue.jobj entries
    match paramsVal with
    | .jobj kvs => applyParams obj kvs
    | _ => ⟨[], some .attributeError, obj⟩
  | _ => ⟨["JSON parameter specification must be a dictionary."], none, obj⟩

/-- Embedding of `JSONInit.__call__(parameterized)` (source lines
451-485).  `targetKey` is the `target` parameter (`self.target if
self.target is not None else param_class.__name__`); `json_file` the
`json_file` parameter; `env_var` the value of the environment variable
named by `varname` (`os.environ.get(self.varname, None)`).

Control flow follows the source: a silent no-op when neither source is
configured; the file branch is taken when `json_file` is truthy or the
environment value ends in `'.json'`; a file/parse failure in the file
branch enters the bare `except:` whose handler formats `'Could not load
JSON file %r' % spec` - but `spec` is unbound exactly when the load
failed, so the handler itself raises `UnboundLocalError` and no warning
is emitted; in the environment branch `json.loads` is not wrapped in a
`try` at all, so a malformed document raises an uncaught `ValueError`. -/
def JSONInit.call (targetKey json_file : Option String) (env_var : Option String)
    (loadFile : String → Except Unit JValue) (parseStr : String → Except Unit JValue)
    (obj : PzObject) : InitOutcome :=
  let target := targetKey.getD obj.typeName
  if env_var.isNone && json_file.isNone then ⟨[], none, obj⟩
  else
    let fileCond : Except PyError Bool :=
      if pyTruthyStr json_file then .ok true
      else
        match env_var with
        | none => .error .attributeError
        | some s => .ok (pyEndsWith s ".json")
    match fileCond with
    | .error e => ⟨[], some e, obj⟩
    | .ok true =>
      let fname := if pyTruthyStr json_file then json_file.getD "" else env_var.getD ""
      match loadFile fname with
      | .ok spec => applySpec target spec obj
      | .error _ => ⟨[], some .unboundLocalError, obj⟩
    | .ok false =>
      match env_var with
      | some s =>
        match parseStr s with
        | .ok spec => applySpec target spec obj
        | .error _ => ⟨[], some (.valueError "malformed JSON"), obj⟩
      | none => ⟨[], some .attributeError, obj⟩

end Paramnb

namespace Paramnb

/-! ### Concrete fixtures used by the claim theorems -/

/-- Fixture for the layout ordering: `b` is declared before `a`, both
with precedence 1, and the mandatory `name` parameter has no declared
precedence. -/
def exC1 : List (String × PParam) :=
  [("name", {}), ("b", { precedence := some 1 }), ("a", { precedence := some 1 })]

/-- Fixture for the visibility threshold: a parameter `p` with declared
precedence `-5`. -/
def exC3 : List (String × PParam) :=
  [("name", {}), ("p", { precedence := some (-5) })]

/-- Fixture target object of type name `Foo` with one settable parameter
`p1` (initially `1`) whose validation accepts everything. -/
def exObj : PzObject :=
  ⟨"Foo", [("name", .jstr "Foo00001"), ("p1", .jnum 1)], fun _ _ => true⟩

/-- Override document `{"p1": 5}`. -/
def doc1 : JValue := .jobj [("p1", .jnum 5)]

/-- Override document `{"Foo": {"p1": 5}}`. -/
def doc2 : JValue := .jobj [("Foo", .jobj [("p1", .jnum 5)])]

/-- Override document `{"Bar": {"p1": 5}}`. -/
def doc3 : JValue := .jobj [("Bar", .jobj [("p1", .jnum 5)])]

/-- File oracle for a missing or unreadable file: `open`/`json.load`
raises. -/
def noFile : String → Except Unit JValue := fun _ => .error ()

/-- Parser oracle returning a fixed successfully parsed document. -/
def parseTo (doc : JValue) : String → Except Unit JValue := fun _ => .ok doc

/-- Parser oracle for a malformed document: `json.loads` raises. -/
def parseFail : String → Except Unit JValue := fun _ => .error ()


/-! ### Helper lemmas for the layout ordering pipeline -/

theorem codesLe_total : ∀ x y : List ℕ, codesLe x y = true ∨ codesLe y x = true := by
  intro x
  induction x with
  | nil => intro y; left; rfl
  | cons a xs ih =>
    intro y
    cases y with
    | nil => right; rfl
    | cons b ys =>
      rcases lt_trichotomy a b with h | h | h
      · left; simp [codesLe, h]
      · subst h
        rcases ih ys with h' | h'
        · left; simpa [codesLe] using h'
        · right; simpa [codesLe] using h'
      · right; simp [codesLe, h]

theorem codesLe_trans : ∀ x y z : List ℕ,
    codesLe x y = true → codesLe y z = true → codesLe x z = true := by
  intro x
  induction x with
  | nil => intro y z _ _; rfl
  | cons a xs ih =>
    intro y z hxy hyz
    cases y with
    | nil => simp [codesLe] at hxy
    | cons b ys =>
      cases z with
      | nil => simp [codesLe] at hyz
      | cons c zs =>
        by_cases hab : a < b
        · -- a < b; need a < c or (a = c and rest)
          by_cases hbc : b < c
          · simp [codesLe, lt_trans hab hbc]
          · by_cases hcb : c < b
            · simp [codesLe, hbc, hcb] at hyz
            · have : b = c := le_antisymm (le_of_not_lt hcb) (le_of_not_lt hbc)
              subst this
              simp [codesLe, hab]
        · by_cases hba : b < a
          · simp [codesLe, hab, hba] at hxy
          · have hab' : a = b := le_antisymm (le_of_not_lt hba) (le_of_not_lt hab)
            subst hab'
            simp only [codesLe, if_neg (lt_irrefl a)] at hxy
            by_cases hac : a < c
            · simp [codesLe, hac]
            · by_cases hca : c < a
              · simp [codesLe, hac, hca] at hyz
              · have : a = c := le_antisymm (le_of_not_lt hca) (le_of_not_lt hac)
                subst this
                simp only [codesLe, if_neg (lt_irrefl a)] at hyz ⊢
                exact ih ys zs hxy hyz

instance : IsTotal (String × PParam) pairLe :=
  ⟨fun a b => by
    rcases codesLe_total (a.1.data.map Char.toNat) (b.1.data.map Char.toNat) with h | h
    · exact Or.inl h
    · exact Or.inr h⟩

instance : IsTrans (String × PParam) pairLe :=
  ⟨fun _ _ _ hab hbc => codesLe_trans _ _ _ hab hbc⟩

theorem groupRuns_cons_head (key : String × PParam → ℚ) :
    ∀ (rest : List (String × PParam)) (y : String × PParam),
      ∃ t gs, groupRuns key (y :: rest) = (y :: t) :: gs := by
  intro rest
  induction rest with
  | nil => intro y; exact ⟨[], [], rfl⟩
  | cons z rs ih =>
    intro y
    obtain ⟨t, gs, heq⟩ := ih z
    by_cases h : key y = key z
    · refine ⟨z :: t, gs, ?_⟩
      simp [groupRuns, h, heq]
    · refine ⟨[], groupRuns key (z :: rs), ?_⟩
      simp [groupRuns, h]

theorem groupRuns_flatten (key : String × PParam → ℚ) :
    ∀ l : List (String × PParam), (groupRuns key l).flatten = l := by
  intro l
  induction l with
  | nil => rfl
  | cons x xs ih =>
    cases xs with
    | nil => rfl
    | cons y rest =>
      by_cases h : key x = key y
      · obtain ⟨t, gs, heq⟩ := groupRuns_cons_head key rest y
        rw [heq] at ih
        simp only [groupRuns, h, if_pos, heq]
        simp only [List.flatten_cons] at ih ⊢
        simp [ih]
      · simp only [groupRuns, h, if_neg, not_false_iff]
        simp [List.flatten_cons, ih]

theorem groupRuns_const (key : String × PParam → ℚ) :
    ∀ l : List (String × PParam), ∀ g ∈ groupRuns key l, ∀ a ∈ g, ∀ b ∈ g, key a = key b := by
  intro l
  induction l with
  | nil => intro g hg; simp [groupRuns] at hg
  | cons x xs ih =>
    cases xs with
    | nil =>
      intro g hg a ha b hb
      simp only [groupRuns, List.mem_singleton] at hg
      subst hg
      simp only [List.mem_singleton] at ha hb
      subst ha; subst hb; rfl
    | cons y rest =>
      intro g hg a ha b hb
      by_cases h : key x = key y
      · obtain ⟨t, gs, heq⟩ := groupRuns_cons_head key rest y
        rw [groupRuns, if_pos h, heq] at hg
        simp only [List.mem_cons] at hg
        rcases hg with hg | hg
        · subst hg
          -- every element of x :: y :: t has key equal to key x
          have hyt : ∀ c ∈ y :: t, key c = key y := by
            intro c hc
            exact ih (y :: t) (heq ▸ List.mem_cons_self _ _) c hc y (List.mem_cons_self _ _)
          have hall : ∀ c ∈ x :: y :: t, key c = key x := by
            intro c hc
            rcases List.mem_cons.mp hc with hc | hc
            · subst hc; rfl
            · rw [hyt c hc, ← h]
          rw [hall a ha, hall b hb]
        · exact ih g (heq ▸ List.mem_cons_of_mem _ hg) a ha b hb
      · rw [groupRuns, if_neg h] at hg
        simp only [List.mem_cons] at hg
        rcases hg with hg | hg
        · subst hg
          simp only [List.mem_singleton] at ha hb
          subst ha; subst hb; rfl
        · exact ih g hg a ha b hb

theorem groupRuns_pairwise_lt (key : String × PParam → ℚ) :
    ∀ l : List (String × PParam), l.Pairwise (fun a b => key a ≤ key b) →
      (groupRuns key l).Pairwise (fun g h => ∀ a ∈ g, ∀ b ∈ h, key a < key b) := by
  intro l
  induction l with
  | nil => intro _; simp [groupRuns]
  | cons x xs ih =>
    cases xs with
    | nil => intro _; simp [groupRuns]
    | cons y rest =>
      intro hp
      rw [List.pairwise_cons] at hp
      obtain ⟨hx, hrest⟩ := hp
      have ihp := ih hrest
      by_cases h : key x = key y
      · obtain ⟨t, gs, heq⟩ := groupRuns_cons_head key rest y
        rw [groupRuns, if_pos h, heq]
        rw [heq] at ihp
        rw [List.pairwise_cons] at ihp ⊢
        obtain ⟨hhead, htail⟩ := ihp
        refine ⟨?_, htail⟩
        intro g' hg' a ha b hb
        rcases List.mem_cons.mp ha with ha' | ha'
        · subst ha'
          have := hhead g' hg' y (List.mem_cons_self _ _) b hb
          rw [h]; exact this
        · exact hhead g' hg' a ha' b hb
      · rw [groupRuns, if_neg h]
        rw [List.pairwise_cons]
        refine ⟨?_, ihp⟩
        intro g' hg' a ha b hb
        simp only [List.mem_singleton] at ha
        subst ha
        have hbmem : b ∈ y :: rest := by
          have : b ∈ (groupRuns key (y :: rest)).flatten := List.mem_flatten.mpr ⟨g', hg', hb⟩
          rwa [groupRuns_flatten] at this
        have hxy : key a < key y := lt_of_le_of_ne (hx y (List.mem_cons_self _ _)) (by simpa using h)
        rcases List.mem_cons.mp hbmem with hb' | hb'
        · subst hb'; exact hxy
        · calc key a < key y := hxy
            _ ≤ key b := List.rel_of_pairwise_cons hrest hb'

theorem sortedPrecedence_pairwise (dp : ℚ) (params : List (String × PParam)) :
    (sortedPrecedence dp params).Pairwise (fun a b => keyFn dp a ≤ keyFn dp b) := by
  haveI : IsTotal (String × PParam) (fun a b => keyFn dp a ≤ keyFn dp b) :=
    ⟨fun a b => le_total _ _⟩
  haveI : IsTrans (String × PParam) (fun a b => keyFn dp a ≤ keyFn dp b) :=
    ⟨fun _ _ _ => le_trans⟩
  exact List.sorted_insertionSort _ params

theorem layoutPairs_sorted (dp dt : ℚ) (params : List (String × PParam)) :
    (layoutPairs dp dt params).Pairwise (fun a b =>
      keyFn dp a < keyFn dp b ∨ (keyFn dp a = keyFn dp b ∧ pyStrLe a.1 b.1 = true)) := by
  unfold layoutPairs sortedGroups
  rw [List.pairwise_flatten]
  constructor
  · intro g' hg'
    obtain ⟨g, hg, rfl⟩ := List.mem_map.mp hg'
    have hconst := groupRuns_const (keyFn dp) (filteredParams dp dt params) g hg
    have hsorted : (List.insertionSort pairLe g).Pairwise pairLe :=
      List.sorted_insertionSort pairLe g
    refine List.Pairwise.imp_of_mem ?_ hsorted
    intro a b ha hb hr
    refine Or.inr ⟨?_, hr⟩
    exact hconst a ((List.perm_insertionSort pairLe g).mem_iff.mp ha)
      b ((List.perm_insertionSort pairLe g).mem_iff.mp hb)
  · have hfsorted : (filteredParams dp dt params).Pairwise (fun a b => keyFn dp a ≤ keyFn dp b) :=
      List.Pairwise.sublist (List.filter_sublist _) (sortedPrecedence_pairwise dp params)
    have hgroups := groupRuns_pairwise_lt (keyFn dp) _ hfsorted
    rw [List.pairwise_map]
    refine hgroups.imp ?_
    intro g h hP x hx y hy
    exact Or.inl (hP x ((List.perm_insertionSort pairLe g).mem_iff.mp hx)
      y ((List.perm_insertionSort pairLe h).mem_iff.mp hy))

theorem mem_layoutPairs (dp dt : ℚ) (params : List (String × PParam))
    (x : String × PParam) :
    x ∈ layoutPairs dp dt params ↔ x ∈ params ∧ visibleB dt x = true := by
  unfold layoutPairs sortedGroups
  rw [List.mem_flatten]
  constructor
  · rintro ⟨g', hg', hx⟩
    obtain ⟨g, hg, rfl⟩ := List.mem_map.mp hg'
    have hxg : x ∈ g := (List.perm_insertionSort pairLe g).mem_iff.mp hx
    have hmem : x ∈ (groupRuns (keyFn dp) (filteredParams dp dt params)).flatten :=
      List.mem_flatten.mpr ⟨g, hg, hxg⟩
    rw [groupRuns_flatten] at hmem
    unfold filteredParams at hmem
    rw [List.mem_filter] at hmem
    exact ⟨(List.perm_insertionSort _ params).mem_iff.mp hmem.1, hmem.2⟩
  · rintro ⟨hmem, hvis⟩
    have h1 : x ∈ filteredParams dp dt params := by
      unfold filteredParams
      exact List.mem_filter.mpr ⟨(List.perm_insertionSort _ params).mem_iff.mpr hmem, hvis⟩
    have h2 : x ∈ (groupRuns (keyFn dp) (filteredParams dp dt params)).flatten := by
      rw [groupRuns_flatten]; exact h1
    obtain ⟨g, hg, hxg⟩ := List.mem_flatten.mp h2
    exact ⟨List.insertionSort pairLe g, List.mem_map_of_mem _ hg,
      (List.perm_insertionSort pairLe g).mem_iff.mpr hxg⟩

end Paramnb

namespace Paramnb

/-! ### Claim theorems -/

/-- C1, counterexample: with fields declared in the order `name`, `b`,
`a`, where `b` and `a` share precedence 1, the layout step renders `a`
before `b`: `sorted(grp)` (source line 387) re-sorts each
equal-precedence group alphabetically, so declaration order is not
preserved, contrary to the claim. -/
theorem widgets_equal_precedence_not_declaration_order :
    widgetsOrder default_precedence display_threshold exC1 = some ["a", "b"] ∧
    widgetsOrder default_precedence display_threshold exC1 ≠ some ["b", "a"] ∧
    exC1.map Prod.fst = ["name", "b", "a"] ∧
    keyFn default_precedence ("b", { precedence := some 1 }) =
      keyFn default_precedence ("a", { precedence := some 1 }) :=
  ⟨rfl, by decide, rfl, rfl⟩

/-- C1, amended (proved): the ordered field list produced by the layout
step is sorted by effective precedence (the declared precedence, or the
configured `default_precedence` when the declared precedence is `None`),
and fields with equal effective precedence appear in lexicographic
(code-point) order of their field names, not in declaration order. -/
theorem layoutPairs_sorted_by_precedence_then_name (dp dt : ℚ)
    (params : List (String × PParam)) :
    (layoutPairs dp dt params).Pairwise (fun a b =>
      keyFn dp a < keyFn dp b ∨ (keyFn dp a = keyFn dp b ∧ pyStrLe a.1 b.1 = true)) :=
  layoutPairs_sorted dp dt params

/-- C2 (confirmed): a field descriptor whose `constant` flag is true
resolves to the non-editable `HTMLWidget` factory for every declared
type, without consulting the `ptype2wtype` registry. -/
theorem wtype_constant_is_htmlwidget (t : PType) (prec : Option ℚ) :
    wtype { ptype := t, precedence := prec, «constant» := true } = some .HTMLWidget := rfl

/-- C3 (confirmed): a field is in the ordered field list of the layout
step iff it is among the target's fields and its declared precedence is
`None` or at least the display threshold; concretely, precedence `-5` is
excluded at threshold `0` and included at threshold `-10`. -/
theorem layout_visibility :
    (∀ (dp dt : ℚ) (params : List (String × PParam)) (x : String × PParam),
        x ∈ layoutPairs dp dt params ↔ x ∈ params ∧ visibleB dt x = true) ∧
    (∀ (dt : ℚ) (x : String × PParam),
        visibleB dt x = true ↔
          (x.2.precedence = none ∨ ∃ q, x.2.precedence = some q ∧ dt ≤ q)) ∧
    widgetsOrder default_precedence 0 exC3 = some [] ∧
    widgetsOrder default_precedence (-10) exC3 = some ["p"] := by
  refine ⟨mem_layoutPairs, ?_, rfl, rfl⟩
  intro dt x
  cases h : x.2.precedence with
  | none => simp [visibleB, h]
  | some q => simp [visibleB, h]

/-- C4 (code-bug evidence): when the override source fails to parse, no
warning is emitted and an exception escapes, though the object is left
unmutated.  For a failing file load the bare `except:` handler formats
`'Could not load JSON file %r' % spec` with `spec` unbound (source line
468), raising `UnboundLocalError`; for a malformed environment-variable
document, `json.loads` (source line 470) is outside any `try`, so the
`ValueError` propagates. -/
theorem jsoninit_parse_failure_raises :
    ((JSONInit.call none (some "settings.json") none noFile (parseTo doc1) exObj).raised
        = some .unboundLocalError ∧
      (JSONInit.call none (some "settings.json") none noFile (parseTo doc1) exObj).warnings
        = [] ∧
      (JSONInit.call none (some "settings.json") none noFile (parseTo doc1) exObj).obj.values
        = exObj.values) ∧
    ((JSONInit.call none none (some "not valid json") noFile parseFail exObj).raised
        = some (.valueError "malformed JSON") ∧
      (JSONInit.call none none (some "not valid json") noFile parseFail exObj).warnings = [] ∧
      (JSONInit.call none none (some "not valid json") noFile parseFail exObj).obj.values
        = exObj.values) :=
  ⟨⟨rfl, rfl, rfl⟩, ⟨rfl, rfl, rfl⟩⟩

end Paramnb

namespace Paramnb

theorem run_next_cells_advance (nn : NextN) :
    ∀ e ∈ run_next_cells nn, e.isAdvance = true := by
  intro e he
  cases nn with
  | all =>
    simp only [run_next_cells, List.mem_singleton] at he
    subst he; rfl
  | num n =>
    rw [run_next_cells] at he
    split at he
    · simp at he
    · simp only [List.mem_singleton] at he
      subst he; rfl

theorem Ev.eq_advance_of_isAdvance {e : Ev} (h : e.isAdvance = true) :
    ∃ b, e = .advance b := by
  cases e <;> simp [Ev.isAdvance] at h ⊢

theorem run_next_cells_countP_eq_zero (nn : NextN) (p : Ev → Bool)
    (hp : ∀ b, p (.advance b) = false) : (run_next_cells nn).countP p = 0 := by
  rw [List.countP_eq_zero]
  intro e he
  obtain ⟨b, rfl⟩ := Ev.eq_advance_of_isAdvance (run_next_cells_advance nn e he)
  simp [hp]

/-- C5 (confirmed): every commit performs the `run_next_cells` advance
side effect first and invokes the configured callback afterwards with
the target object as its sole argument; an advance count of `0` or `-1`
(any integer below 1) advances nothing, and the sentinel `'all'`
requests a single unbounded advance. -/
theorem execute_advance_then_callback (pz : String) (cb : Bool) :
    (∀ nn : NextN, (execute pz nn cb).Pairwise
        (fun a b => ¬(a.isCallbackCall = true ∧ b.isAdvance = true))) ∧
    (∀ nn : NextN, (execute pz nn cb).countP Ev.isCallbackCall = if cb then 1 else 0) ∧
    (∀ nn : NextN, ∀ e ∈ execute pz nn cb, e.isCallbackCall = true → e = .callbackCall pz) ∧
    (execute pz (.num 0) cb).countP Ev.isAdvance = 0 ∧
    (execute pz (.num (-1)) cb).countP Ev.isAdvance = 0 ∧
    (∀ n : ℤ, n < 1 → (execute pz (.num n) cb).countP Ev.isAdvance = 0) ∧
    execute pz .all cb
      = .commitBegin :: .advance none :: (if cb then [.callbackCall pz] else []) ∧
    (∀ n : ℤ, 1 ≤ n → execute pz (.num n) cb
      = .commitBegin :: .advance (some n) :: (if cb then [.callbackCall pz] else [])) := by
  refine ⟨?_, ?_, ?_, ?_, ?_, ?_, ?_, ?_⟩
  · intro nn
    cases nn with
    | all =>
      cases cb <;>
        simp [execute, run_next_cells, List.pairwise_cons, Ev.isCallbackCall, Ev.isAdvance]
    | num n =>
      by_cases h : n < 1 <;> cases cb <;>
        simp [execute, run_next_cells, h, List.pairwise_cons, Ev.isCallbackCall, Ev.isAdvance]
  · intro nn
    have h0 : (run_next_cells nn).countP Ev.isCallbackCall = 0 :=
      run_next_cells_countP_eq_zero nn _ (fun _ => rfl)
    cases cb <;>
      simp [execute, List.countP_cons, List.countP_append, h0, Ev.isCallbackCall]
  · intro nn e he hcb
    simp only [execute, List.mem_cons, List.mem_append] at he
    rcases he with rfl | he | he
    · simp [Ev.isCallbackCall] at hcb
    · obtain ⟨b, rfl⟩ := Ev.eq_advance_of_isAdvance (run_next_cells_advance nn e he)
      simp [Ev.isCallbackCall] at hcb
    · cases cb with
      | true => simpa using he
      | false => simp at he
  · simp [execute, run_next_cells, List.countP_cons, List.countP_append,
      Ev.isAdvance]
  · simp [execute, run_next_cells, List.countP_cons, List.countP_append,
      Ev.isAdvance]
  · intro n hn
    simp [execute, run_next_cells, hn, List.countP_cons, List.countP_append]
    cases cb <;> simp [Ev.isAdvance]
  · simp [execute, run_next_cells]
  · intro n hn
    have : ¬(n < 1) := by omega
    simp [execute, run_next_cells, this]

/-- C5, witness. -/
theorem execute_advance_then_callback_witness :
    ((-1 : ℤ) < 1 ∧ (execute "obj" (.num (-1)) true).countP Ev.isAdvance = 0) ∧
    (1 ≤ (3 : ℤ) ∧ execute "obj" (.num 3) true
      = .commitBegin :: .advance (some 3) :: [.callbackCall "obj"]) :=
  ⟨⟨by decide, (execute_advance_then_callback "obj" true).2.2.2.2.2.1 (-1) (by decide)⟩,
   ⟨by decide, (execute_advance_then_callback "obj" true).2.2.2.2.2.2.2 3 (by decide)⟩⟩

end Paramnb

namespace Paramnb

/-- C6, counterexample: with button mode on, no callback, and
`next_n = -1`, the source's condition `not (callback is None and
next_n==0)` holds (because `-1 != 0`), so a button labeled `"Run"` IS
appended, though the claim's condition (callback set or advance-count
positive) is false. -/
theorem commit_button_appended_without_callback_or_positive_count :
    commitButton true false (.num (-1)) = .ok (some "Run") ∧
    ¬(false = true ∨ (0 : ℤ) < -1) :=
  ⟨rfl, by decide⟩

/-- C6, amended (proved): the commit-trigger button is appended iff
button mode is enabled and (the callback is set or `next_n != 0`); when
appended with a positive integer count the label includes the count,
with a non-positive count the label is plain `"Run"`; with the `'all'`
sentinel and button mode on, the label computation `next_n > 0` raises
`TypeError`. -/
theorem commit_button_append_iff (b cb : Bool) (n : ℤ) :
    (commitButton b cb (.num n) = .ok none ↔ ¬(b = true ∧ (cb = true ∨ n ≠ 0))) ∧
    (b = true → 0 < n → commitButton b cb (.num n) = .ok (some ("Run " ++ toString n))) ∧
    (b = true → (cb = true ∨ n ≠ 0) → n ≤ 0 →
      commitButton b cb (.num n) = .ok (some "Run")) ∧
    (commitButton b cb .all = if b = true then .error .typeError else .ok none) := by
  refine ⟨?_, ?_, ?_, ?_⟩
  · cases b with
    | false => simp [commitButton]
    | true =>
      by_cases h : n = 0
      · subst h
        cases cb <;> simp [commitButton, pyEqZero, pyGtZero]
      · have hne : pyEqZero (.num n) = false := by simp [pyEqZero, h]
        by_cases h2 : 0 < n <;>
          cases cb <;> simp [commitButton, hne, pyGtZero, h, h2]
  · intro hb h2
    subst hb
    have hne : pyEqZero (.num n) = false := by
      simp [pyEqZero]; omega
    simp [commitButton, hne, pyGtZero, h2, NextN.pyStr]
  · intro hb hcond hle
    subst hb
    have h2 : ¬(0 < n) := by omega
    rcases hcond with hcb | hne
    · subst hcb
      simp [commitButton, pyGtZero, h2]
    · have hz : pyEqZero (.num n) = false := by simp [pyEqZero, hne]
      cases cb <;> simp [commitButton, hz, pyGtZero, h2]
  · cases b <;> simp [commitButton, pyEqZero, pyGtZero]

/-- C6, witness. -/
theorem commit_button_append_iff_witness :
    (0 : ℤ) < 3 ∧ commitButton true true (.num 3) = .ok (some "Run 3") :=
  ⟨by decide, (commit_button_append_iff true true 3).2.1 rfl (by decide)⟩

/-- C7, counterexample: for document `{"Bar": {"p1": 5}}` and target
type `Foo`, the whole document becomes the override set, so `set_param`
is attempted for the unknown key `Bar`; its `ValueError` is caught and
warned (source lines 481-485).  `p1` is indeed untouched, but a warning
IS raised, contrary to the claim. -/
theorem jsoninit_unmatched_target_key_warns :
    (JSONInit.call none none (some "spec") noFile (parseTo doc3) exObj).obj.values.lookup "p1"
      = some (.jnum 1) ∧
    (JSONInit.call none none (some "spec") noFile (parseTo doc3) exObj).warnings
      = ["Bar is not a parameter of Foo"] ∧
    (JSONInit.call none none (some "spec") noFile (parseTo doc3) exObj).warnings ≠ [] :=
  ⟨rfl, rfl, by decide⟩

/-- C7, amended (proved): when the parsed document is a mapping, the
sub-mapping under the target key is used as the override set when that
key is present, otherwise the whole document is used.  Concretely, with
target type `Foo`: `{"p1": 5}` sets `p1` to 5 with no warning,
`{"Foo": {"p1": 5}}` sets `p1` to 5 with no warning, and
`{"Bar": {"p1": 5}}` leaves `p1` untouched but emits one warning for
the failed assignment of the unknown key `Bar`. -/
theorem jsoninit_target_key_selection :
    (∀ (tk : String) (entries kvs : List (String × JValue)) (obj : PzObject),
        entries.lookup tk = some (.jobj kvs) →
          applySpec tk (.jobj entries) obj = applyParams obj kvs) ∧
    (∀ (tk : String) (entries : List (String × JValue)) (obj : PzObject),
        entries.lookup tk = none →
          applySpec tk (.jobj entries) obj = applyParams obj entries) ∧
    ((JSONInit.call none none (some "spec") noFile (parseTo doc1) exObj).obj.values.lookup "p1"
        = some (.jnum 5) ∧
      (JSONInit.call none none (some "spec") noFile (parseTo doc1) exObj).warnings = []) ∧
    ((JSONInit.call none none (some "spec") noFile (parseTo doc2) exObj).obj.values.lookup "p1"
        = some (.jnum 5) ∧
      (JSONInit.call none none (some "spec") noFile (parseTo doc2) exObj).warnings = []) ∧
    ((JSONInit.call none none (some "spec") noFile (parseTo doc3) exObj).obj.values.lookup "p1"
        = some (.jnum 1) ∧
      (JSONInit.call none none (some "spec") noFile (parseTo doc3) exObj).warnings
        = ["Bar is not a parameter of Foo"]) := by
  refine ⟨?_, ?_, ⟨rfl, rfl⟩, ⟨rfl, rfl⟩, ⟨rfl, rfl⟩⟩
  · intro tk entries kvs obj h
    simp [applySpec, h]
  · intro tk entries obj h
    simp [applySpec, h]

/-- C7, witness. -/
theorem jsoninit_target_key_selection_witness :
    [("Foo", JValue.jobj [("p1", JValue.jnum 5)])].lookup "Foo"
        = some (JValue.jobj [("p1", JValue.jnum 5)]) ∧
    applySpec "Foo" (.jobj [("Foo", JValue.jobj [("p1", JValue.jnum 5)])]) exObj
        = applyParams exObj [("p1", JValue.jnum 5)] :=
  ⟨rfl, jsoninit_target_key_selection.1 "Foo" _ _ exObj rfl⟩

/-- C8 (confirmed): a pull-channel value-change event writes the new
value onto the bound field exactly once and first (the head of the
trace); every commit-triggered side effect comes after; with button
mode off exactly one commit is triggered, with button mode on none.
Fields without a `callback` attribute are the ones wired to the pull
channel. -/
theorem change_event_write_then_commit (pz pn : String) (b : Bool) (nn : NextN)
    (cb : Bool) :
    (change_event pz pn b nn cb).head? = some (.setValue pn) ∧
    (change_event pz pn b nn cb).countP Ev.isSetValue = 1 ∧
    (change_event pz pn b nn cb).tail.countP Ev.isSetValue = 0 ∧
    (change_event pz pn b nn cb).countP Ev.isCommitBegin = (if b then 0 else 1) ∧
    usesPullChannel false = true := by
  have hrunSet : (run_next_cells nn).countP Ev.isSetValue = 0 :=
    run_next_cells_countP_eq_zero nn _ (fun _ => rfl)
  have hrunCommit : (run_next_cells nn).countP Ev.isCommitBegin = 0 :=
    run_next_cells_countP_eq_zero nn _ (fun _ => rfl)
  refine ⟨rfl, ?_, ?_, ?_, rfl⟩
  · cases b <;> cases cb <;>
      simp [change_event, execute, List.countP_cons, List.countP_append, hrunSet,
        Ev.isSetValue]
  · cases b <;> cases cb <;>
      simp [change_event, execute, List.countP_cons, List.countP_append, hrunSet,
        Ev.isSetValue]
  · cases b <;> cases cb <;>
      simp [change_event, execute, List.countP_cons, List.countP_append, hrunCommit,
        Ev.isCommitBegin, Ev.isSetValue]

/-- C9 (confirmed): the per-field control lookup is idempotent: the
first call caches the created control under the field name, and a
second call returns the identical control without changing the
registry. -/
theorem widget_lookup_idempotent (s : WState) (pn : String) :
    (widget (widget s pn).2 pn).1 = (widget s pn).1 ∧
    (widget (widget s pn).2 pn).2 = (widget s pn).2 ∧
    (widget s pn).2.registry.lookup pn = some ((widget s pn).1) := by
  cases h : s.registry.lookup pn with
  | some w => simp [widget, h]
  | none => simp [widget, h, List.lookup]

/-- C10 (confirmed): the list-selector factory produces the two-pane
cross-select control iff `item_limit` is not `None` and the option count
exceeds it; `item_limit = None` always yields the plain multi-select,
a negative `item_limit` always yields the cross-select, and the default
`item_limit` is 20. -/
theorem list_selector_widget_choice (limit : Option ℤ) (options : List String) :
    (ListSelectorWidget.call limit options = .CrossSelect ↔
      ∃ l, limit = some l ∧ (options.length : ℤ) > l) ∧
    ListSelectorWidget.call none options = .SelectMultiple ∧
    (∀ l : ℤ, l < 0 → ListSelectorWidget.call (some l) options = .CrossSelect) ∧
    ListSelectorWidget.item_limit = some 20 := by
  refine ⟨?_, rfl, ?_, rfl⟩
  · cases limit with
    | none => simp [ListSelectorWidget.call]
    | some l =>
      by_cases h : (options.length : ℤ) > l <;>
        simp [ListSelectorWidget.call, h]
  · intro l hl
    have h : (options.length : ℤ) > l := by
      have := Int.ofNat_nonneg options.length
      omega
    simp [ListSelectorWidget.call, h]

/-- C10, witness. -/
theorem list_selector_widget_choice_witness :
    (-1 : ℤ) < 0 ∧ ListSelectorWidget.call (some (-1)) [] = .CrossSelect :=
  ⟨by decide, (list_selector_widget_choice (some (-1)) []).2.2.1 (-1) (by decide)⟩

end Paramnb
